import Mathlib

/-!
Verification development for the answer-evaluator repository.

The visible source is `src/frontend/src/App.js`, a React presentation layer;
its `submitAnswer` handler is embedded below as a pure state-transition
function.  The Answer Evaluation Engine itself (Key Point Store, Similarity
Scorer, Feedback Composer, Evaluation Orchestrator) is not present in the
repository source, so it is modelled from the specification, as marked on
each definition.
-/

open scoped Classical

/-- Modelled from the spec: an embedding is a fixed-dimensional real vector
(the Embedding Provider's output type); the provider itself is external. -/
abbrev Vec (n : ℕ) := Fin n → ℝ

/-- Modelled from the spec: dot product of two embedding vectors. -/
def dot {n : ℕ} (a b : Vec n) : ℝ := ∑ i, a i * b i

/-- Modelled from the spec: Euclidean norm `|a|` of an embedding vector. -/
noncomputable def vnorm {n : ℕ} (a : Vec n) : ℝ := Real.sqrt (dot a a)

/-- Modelled from the spec: cosine similarity `dot(a, k) / (|a| * |k|)`,
returning 0 instead of failing when either vector is zero (the spec requires
a zero-vector answer embedding to yield similarity 0 for all key points). -/
noncomputable def cosineSim {n : ℕ} (a k : Vec n) : ℝ :=
  if dot a a = 0 ∨ dot k k = 0 then 0 else dot a k / (vnorm a * vnorm k)

/-- Modelled from the spec: a KeyPoint has a reference text, a precomputed
embedding, and a positive weight (the data model of §3; the authoring side is
external). -/
structure KeyPoint (n : ℕ) where
  text : String
  embedding : Vec n
  weight : ℝ

/-- Modelled from the spec: the Similarity Scorer's structured result
`ScoringResult{per_key_point_similarity, hits, misses, raw_score}`. -/
structure ScoringResult where
  per_key_point_similarity : List ℝ
  hits : List String
  misses : List String
  raw_score : ℤ

/-- Modelled from the spec: hit classification, `sim ≥ HIT_THRESHOLD`
(the threshold is a parameter, not a hardcoded literal). -/
noncomputable def isHit {n : ℕ} (a : Vec n) (t : ℝ) (kp : KeyPoint n) : Bool :=
  decide (t ≤ cosineSim a kp.embedding)

/-- Modelled from the spec: `Σ weight_i for all i`. -/
noncomputable def totalWeight {n : ℕ} (kps : List (KeyPoint n)) : ℝ :=
  (kps.map KeyPoint.weight).sum

/-- Modelled from the spec: `Σ weight_i for hit_i`. -/
noncomputable def hitWeight {n : ℕ} (a : Vec n) (t : ℝ) (kps : List (KeyPoint n)) : ℝ :=
  ((kps.filter (isHit a t)).map KeyPoint.weight).sum

/-- Modelled from the spec: rounding to the nearest integer in the
round-half-to-even mode of §6 (ties go to the even neighbour). -/
noncomputable def roundHalfEven (x : ℝ) : ℤ :=
  if Int.fract x = 1 / 2 then (if 2 ∣ ⌊x⌋ then ⌊x⌋ else ⌊x⌋ + 1) else round x

/-- Modelled from the spec: clamping the rounded score to `[0, 100]`. -/
def clampScore (z : ℤ) : ℤ := max 0 (min 100 z)

/-- Modelled from the spec: the Similarity Scorer.  For each key point it
computes cosine similarity against the answer embedding, classifies hit
(`sim ≥ threshold`) and miss, and aggregates the weighted hit fraction
`raw = 100 * (Σ weight_i for hit_i) / (Σ weight_i)`, rounded to the nearest
integer and clamped to `[0, 100]`. -/
noncomputable def score {n : ℕ} (a : Vec n) (kps : List (KeyPoint n)) (t : ℝ) :
    ScoringResult where
  per_key_point_similarity := kps.map fun kp => cosineSim a kp.embedding
  hits := (kps.filter (isHit a t)).map KeyPoint.text
  misses := (kps.filter fun kp => ! isHit a t kp).map KeyPoint.text
  raw_score := clampScore (roundHalfEven (100 * hitWeight a t kps / totalWeight kps))

/-- Modelled from the spec: the Feedback Composer, a pure function of the
ScoringResult whose tone bands scale with `raw_score` (exact wording is
presentation policy). -/
def compose (r : ScoringResult) : String :=
  if 80 ≤ r.raw_score then "Great job! You covered the key points well."
  else if 50 ≤ r.raw_score then "Good effort. Some key points are still missing."
  else "Review the material and try to cover the expected key points."

/-- JavaScript's `String.prototype.trim` (used as `userAnswer.trim()` in
`App.js`): strips whitespace from both ends of the string. -/
def jsTrim (s : String) : String :=
  ⟨((s.data.dropWhile Char.isWhitespace).reverse.dropWhile Char.isWhitespace).reverse⟩

/-- Modelled from the spec: the result record returned to the caller
(`score`, `feedback`, `hit_key_points`, `missing_key_points`). -/
structure EvaluationResult where
  score : ℤ
  feedback : String
  hit_key_points : List String
  missing_key_points : List String
deriving DecidableEq

/-- Modelled from the spec: the error taxonomy of §7. -/
inductive EvalError where
  | InvalidInputError
  | NotFoundError
  | EmbeddingUnavailableError
deriving DecidableEq

/-- Modelled from the spec: the Evaluation Orchestrator.  It validates the
answer (non-empty after trimming, else `InvalidInputError`), looks up key
points (`NotFoundError` propagated unchanged when the question is unknown),
requests the answer embedding (`EmbeddingUnavailableError` on provider
failure), then delegates to the Similarity Scorer and Feedback Composer and
assembles a complete `EvaluationResult`.  The Key Point Store is modelled by
its `get_key_points` lookup and the Embedding Provider by an `embed`
function, `none` standing for provider failure or timeout. -/
noncomputable def evaluate {n : ℕ}
    (get_key_points : String → Option (List (KeyPoint n)))
    (embed : String → Option (Vec n)) (threshold : ℝ)
    (question_id user_answer : String) : Except EvalError EvaluationResult :=
  if jsTrim user_answer = "" then .error .InvalidInputError
  else
    match get_key_points question_id with
    | none => .error .NotFoundError
    | some kps =>
      match embed user_answer with
      | none => .error .EmbeddingUnavailableError
      | some a =>
        let r := score a kps threshold
        .ok { score := r.raw_score, feedback := compose r,
              hit_key_points := r.hits, missing_key_points := r.misses }

/-! Embedding of the visible frontend code, `src/frontend/src/App.js`. -/

/-- The question object held in the `currentQuestion` React state
(fields used by `App.js`: `question_id`, `question_text`). -/
structure Question where
  question_id : String
  question_text : String

/-- The React component state of `App` in `App.js`:
`currentQuestion`, `userAnswer`, `evaluation`, `isLoading`, `error`. -/
structure AppState where
  currentQuestion : Option Question
  userAnswer : String
  evaluation : Option EvaluationResult
  isLoading : Bool
  error : Option String

/-- The body of the POST request issued by `submitAnswer`
(`{question_id, user_answer}`). -/
structure PostRequest where
  question_id : String
  user_answer : String

/-- Outcome of the `axios.post` call: a response body or a thrown error. -/
inductive PostResponse where
  | success (data : EvaluationResult)
  | failure

/-- The `submitAnswer` handler from `App.js`, as a pure state transition.
It returns the final component state together with the POST request issued,
`none` when the handler returned before any HTTP request.  The guards mirror
the source: `!userAnswer.trim()` rejects an answer that is empty after
trimming, `!currentQuestion` rejects a missing question; otherwise the
untrimmed `userAnswer` is sent, `evaluation` is set from the response on
success, and on failure only `error` is set while `isLoading` ends `false`
(`setIsLoading(false)` runs in the `finally` block). -/
def submitAnswer (s : AppState) (respond : PostRequest → PostResponse) :
    AppState × Option PostRequest :=
  if jsTrim s.userAnswer = "" then
    ({ s with error := some "Please enter an answer before submitting." }, none)
  else
    match s.currentQuestion with
    | none => ({ s with error := some "No question loaded." }, none)
    | some q =>
      let req : PostRequest := { question_id := q.question_id, user_answer := s.userAnswer }
      match respond req with
      | .success data =>
        ({ s with isLoading := false, error := none, evaluation := some data }, some req)
      | .failure =>
        ({ s with isLoading := false,
                  error := some "Failed to evaluate answer. Please try again." }, some req)

/-! Concrete data for the scenario of §8: two key points of weight 1 whose
similarities against the answer embedding are exactly 0.9 and 0.4. -/

/-- First scenario key point; against `answerVec` its cosine similarity is
`9 / 10` (dot `9`, norms `1` and `10`). -/
noncomputable def mitosisKp1 : KeyPoint 4 :=
  { text := "mitosis involves chromosome duplication"
    embedding := ![9, 3, 3, 1], weight := 1 }

/-- Second scenario key point; against `answerVec` its cosine similarity is
`2 / 5` (dot `2`, norms `1` and `5`). -/
noncomputable def mitosisKp2 : KeyPoint 4 :=
  { text := "occurs in one round of division"
    embedding := ![2, 4, 2, 1], weight := 1 }

/-- Scenario Key Point Store: question `q-1` has the two mitosis key points;
every other id is unknown. -/
noncomputable def mitosisStore : String → Option (List (KeyPoint 4)) :=
  fun qid => if qid = "q-1" then some [mitosisKp1, mitosisKp2] else none

/-- Scenario answer embedding, a unit vector. -/
noncomputable def answerVec : Vec 4 := ![1, 0, 0, 0]

/-- Scenario Embedding Provider: deterministic, embeds the scenario answer
text to `answerVec` and fails on other inputs. -/
noncomputable def mitosisEmbed : String → Option (Vec 4) :=
  fun t => if t = "chromosomes duplicate" then some answerVec else none

/-- A sample evaluation result, used to instantiate frame theorems. -/
def sampleEval : EvaluationResult :=
  { score := 80, feedback := "Great job! You covered the key points well."
    hit_key_points := ["mitosis involves chromosome duplication"]
    missing_key_points := [] }

/-- A sample component state with a loaded question, an answer with
surrounding whitespace, and a previously displayed evaluation. -/
def sampleState : AppState :=
  { currentQuestion := some { question_id := "q-1", question_text := "Describe mitosis." }
    userAnswer := "  my answer  "
    evaluation := some sampleEval
    isLoading := false
    error := none }

/-- A key point whose text also appears on `dupKpB`; its embedding is
parallel to `answerVec`, so it is a hit. -/
noncomputable def dupKpA : KeyPoint 4 :=
  { text := "shared phrase", embedding := ![1, 0, 0, 0], weight := 1 }

/-- A key point with the same text as `dupKpA` but an orthogonal embedding,
so it is a miss. -/
noncomputable def dupKpB : KeyPoint 4 :=
  { text := "shared phrase", embedding := ![0, 1, 0, 0], weight := 1 }

/-- The zero answer embedding in dimension 4, for witnesses. -/
noncomputable def zeroVec4 : Vec 4 := 0

/-! Theorems. -/

/-- C2: an answer that is empty after trimming is rejected with
`InvalidInputError` and the outcome does not depend on the Embedding
Provider (no embedding request is issued); an answer that is non-empty
after trimming passes this validation (the result is never
`InvalidInputError`).  In the visible code, `submitAnswer` rejects an
answer whose trimmed value is empty, setting an error and returning
before any HTTP request is made. -/
theorem evaluate_rejects_empty_answer (n : ℕ)
    (get_key_points : String → Option (List (KeyPoint n)))
    (embed1 embed2 : String → Option (Vec n)) (t : ℝ) (qid ans : String) :
    (jsTrim ans = "" →
      evaluate get_key_points embed1 t qid ans = .error .InvalidInputError ∧
      evaluate get_key_points embed1 t qid ans = evaluate get_key_points embed2 t qid ans) ∧
    (jsTrim ans ≠ "" →
      evaluate get_key_points embed1 t qid ans ≠ .error .InvalidInputError) ∧
    (∀ (s : AppState) (respond : PostRequest → PostResponse), jsTrim s.userAnswer = "" →
      (submitAnswer s respond).2 = none ∧
      (submitAnswer s respond).1.error = some "Please enter an answer before submitting.") := by
  refine ⟨fun h => by simp [evaluate, h], fun h => ?_, fun s respond h => by simp [submitAnswer, h]⟩
  simp only [evaluate, if_neg h]
  cases hg : get_key_points qid with
  | none => simp
  | some kps =>
    cases he : embed1 ans with
    | none => simp
    | some a => simp

/-- Witness for `evaluate_rejects_empty_answer` at concrete inputs. -/
theorem evaluate_rejects_empty_answer_witness :
    (jsTrim "   " = "" ∧
      evaluate mitosisStore mitosisEmbed (3 / 4) "q-1" "   " = .error .InvalidInputError) ∧
    (jsTrim "chromosomes duplicate" ≠ "" ∧
      evaluate mitosisStore mitosisEmbed (3 / 4) "q-1" "chromosomes duplicate" ≠
        .error .InvalidInputError) ∧
    (jsTrim sampleState.userAnswer ≠ "" ∧
      (submitAnswer { sampleState with userAnswer := " " } (fun _ => .failure)).2 = none) :=
  ⟨⟨by decide,
    ((evaluate_rejects_empty_answer 4 mitosisStore mitosisEmbed mitosisEmbed (3 / 4) "q-1"
      "   ").1 (by decide)).1⟩,
   ⟨by decide,
    (evaluate_rejects_empty_answer 4 mitosisStore mitosisEmbed mitosisEmbed (3 / 4) "q-1"
      "chromosomes duplicate").2.1 (by decide)⟩,
   ⟨by decide,
    ((evaluate_rejects_empty_answer 4 mitosisStore mitosisEmbed mitosisEmbed (3 / 4) "q-1"
      "   ").2.2 { sampleState with userAnswer := " " } (fun _ => .failure) (by decide)).1⟩⟩

/-- C8: an unknown `question_id` makes `evaluate` fail with `NotFoundError`,
propagated unchanged, and `evaluate` always returns either a complete
`EvaluationResult` or an error, never a partial result. -/
theorem evaluate_not_found (n : ℕ)
    (get_key_points : String → Option (List (KeyPoint n)))
    (embed : String → Option (Vec n)) (t : ℝ) (qid ans : String) :
    (get_key_points qid = none → jsTrim ans ≠ "" →
      evaluate get_key_points embed t qid ans = .error .NotFoundError) ∧
    ((∃ r : EvaluationResult, evaluate get_key_points embed t qid ans = .ok r) ∨
     (∃ e : EvalError, evaluate get_key_points embed t qid ans = .error e)) := by
  constructor
  · intro h1 h2
    simp [evaluate, h1, h2]
  · cases hv : evaluate get_key_points embed t qid ans with
    | ok r => exact Or.inl ⟨r, rfl⟩
    | error e => exact Or.inr ⟨e, rfl⟩

/-- Witness for `evaluate_not_found`: the unknown id `q-999` against the
scenario store. -/
theorem evaluate_not_found_witness :
    mitosisStore "q-999" = none ∧ jsTrim "chromosomes duplicate" ≠ "" ∧
    evaluate mitosisStore mitosisEmbed (3 / 4) "q-999" "chromosomes duplicate" =
      .error .NotFoundError :=
  ⟨by simp [mitosisStore], by decide,
   (evaluate_not_found 4 mitosisStore mitosisEmbed (3 / 4) "q-999" "chromosomes duplicate").1
     (by simp [mitosisStore]) (by decide)⟩

/-- C9: with a non-empty trimmed answer and a loaded question, `submitAnswer`
sends the untrimmed `userAnswer` verbatim as the `user_answer` field of the
POST body, even though the emptiness guard checks the trimmed value. -/
theorem submitAnswer_sends_verbatim (s : AppState) (respond : PostRequest → PostResponse)
    (q : Question) (h1 : jsTrim s.userAnswer ≠ "") (h2 : s.currentQuestion = some q) :
    (submitAnswer s respond).2 =
      some { question_id := q.question_id, user_answer := s.userAnswer } := by
  simp only [submitAnswer, if_neg h1, h2]
  cases hr : respond { question_id := q.question_id, user_answer := s.userAnswer } with
  | success data => simp
  | failure => simp

/-- Witness for `submitAnswer_sends_verbatim`: the whitespace-padded answer
of `sampleState` is sent untrimmed. -/
theorem submitAnswer_sends_verbatim_witness :
    jsTrim sampleState.userAnswer ≠ "" ∧
    sampleState.currentQuestion =
      some { question_id := "q-1", question_text := "Describe mitosis." } ∧
    (submitAnswer sampleState (fun _ => .failure)).2 =
      some { question_id := "q-1", user_answer := "  my answer  " } :=
  ⟨by decide, rfl,
   submitAnswer_sends_verbatim sampleState (fun _ => .failure)
     { question_id := "q-1", question_text := "Describe mitosis." } (by decide) rfl⟩

/-- C10: when the POST request fails, `submitAnswer` leaves `evaluation`,
`currentQuestion` and `userAnswer` unchanged; only `error` is set and
`isLoading` ends `false`. -/
theorem submitAnswer_failure_frame (s : AppState) (respond : PostRequest → PostResponse)
    (q : Question) (h1 : jsTrim s.userAnswer ≠ "") (h2 : s.currentQuestion = some q)
    (h3 : respond { question_id := q.question_id, user_answer := s.userAnswer } = .failure) :
    (submitAnswer s respond).1.evaluation = s.evaluation ∧
    (submitAnswer s respond).1.currentQuestion = s.currentQuestion ∧
    (submitAnswer s respond).1.userAnswer = s.userAnswer ∧
    (submitAnswer s respond).1.error = some "Failed to evaluate answer. Please try again." ∧
    (submitAnswer s respond).1.isLoading = false := by
  simp [submitAnswer, if_neg h1, h2, h3]

/-- Witness for `submitAnswer_failure_frame`: a failing request against
`sampleState` keeps the previously displayed evaluation. -/
theorem submitAnswer_failure_frame_witness :
    jsTrim sampleState.userAnswer ≠ "" ∧
    (submitAnswer sampleState (fun _ => .failure)).1.evaluation = some sampleEval ∧
    (submitAnswer sampleState (fun _ => .failure)).1.userAnswer = "  my answer  " ∧
    (submitAnswer sampleState (fun _ => .failure)).1.isLoading = false :=
  ⟨by decide,
   (submitAnswer_failure_frame sampleState (fun _ => .failure)
      { question_id := "q-1", question_text := "Describe mitosis." } (by decide) rfl rfl).1,
   (submitAnswer_failure_frame sampleState (fun _ => .failure)
      { question_id := "q-1", question_text := "Describe mitosis." } (by decide) rfl rfl).2.2.1,
   (submitAnswer_failure_frame sampleState (fun _ => .failure)
      { question_id := "q-1", question_text := "Describe mitosis." } (by decide) rfl rfl).2.2.2.2⟩

/-! Vector-algebra helper lemmas. -/

/-- Unfolding lemma for the dot product. -/
theorem dot_eq_sum {n : ℕ} (a b : Vec n) : dot a b = ∑ i, a i * b i := rfl

/-- The dot product is symmetric. -/
theorem dot_comm {n : ℕ} (a b : Vec n) : dot a b = dot b a :=
  Finset.sum_congr rfl fun i _ => mul_comm (a i) (b i)

/-- A vector's dot product with itself is nonnegative. -/
theorem dot_self_nonneg {n : ℕ} (a : Vec n) : 0 ≤ dot a a :=
  Finset.sum_nonneg fun i _ => mul_self_nonneg (a i)

/-- A vector's dot product with itself as a sum of squares. -/
theorem dot_self_eq_sum_sq {n : ℕ} (a : Vec n) : dot a a = ∑ i, a i ^ 2 :=
  Finset.sum_congr rfl fun i _ => (pow_two (a i)).symm

/-- A nonzero vector has nonzero self dot product. -/
theorem dot_self_ne_zero {n : ℕ} {a : Vec n} (h : a ≠ 0) : dot a a ≠ 0 := by
  intro h0
  apply h
  funext i
  have hz := (Finset.sum_eq_zero_iff_of_nonneg
    (fun j (_ : j ∈ Finset.univ) => mul_self_nonneg (a j))).mp h0 i (Finset.mem_univ i)
  exact mul_self_eq_zero.mp hz

/-- A nonzero vector has positive self dot product. -/
theorem dot_self_pos {n : ℕ} {a : Vec n} (h : a ≠ 0) : 0 < dot a a :=
  lt_of_le_of_ne (dot_self_nonneg a) (Ne.symm (dot_self_ne_zero h))

/-- A nonzero vector has positive norm. -/
theorem vnorm_pos {n : ℕ} {a : Vec n} (h : a ≠ 0) : 0 < vnorm a :=
  Real.sqrt_pos.mpr (dot_self_pos h)

/-- The norm squared recovers the self dot product. -/
theorem vnorm_mul_self {n : ℕ} (a : Vec n) : vnorm a * vnorm a = dot a a :=
  Real.mul_self_sqrt (dot_self_nonneg a)

/-- Cauchy-Schwarz, upper half, in terms of `dot` and `vnorm`. -/
theorem dot_le_vnorm_mul_vnorm {n : ℕ} (a b : Vec n) : dot a b ≤ vnorm a * vnorm b := by
  rw [dot_eq_sum, vnorm, vnorm, dot_self_eq_sum_sq, dot_self_eq_sum_sq]
  exact Real.sum_mul_le_sqrt_mul_sqrt Finset.univ a b

/-- Negating the first argument negates the dot product. -/
theorem dot_neg_left {n : ℕ} (a b : Vec n) : dot (-a) b = - dot a b := by
  rw [dot_eq_sum, dot_eq_sum, ← Finset.sum_neg_distrib]
  exact Finset.sum_congr rfl fun i _ => by simp [neg_mul]

/-- The norm is invariant under negation. -/
theorem vnorm_neg {n : ℕ} (a : Vec n) : vnorm (-a) = vnorm a := by
  rw [vnorm, vnorm]
  congr 1
  rw [dot_eq_sum, dot_eq_sum]
  exact Finset.sum_congr rfl fun i _ => by simp

/-- Cauchy-Schwarz with absolute value. -/
theorem abs_dot_le {n : ℕ} (a b : Vec n) : |dot a b| ≤ vnorm a * vnorm b := by
  rw [abs_le]
  constructor
  · have h := dot_le_vnorm_mul_vnorm (-a) b
    rw [dot_neg_left, vnorm_neg] at h
    linarith
  · exact dot_le_vnorm_mul_vnorm a b

/-- Cosine similarity is symmetric in its two arguments. -/
theorem cosineSim_comm {n : ℕ} (a k : Vec n) : cosineSim a k = cosineSim k a := by
  unfold cosineSim
  by_cases h : dot a a = 0 ∨ dot k k = 0
  · rw [if_pos h, if_pos (Or.symm h)]
  · rw [if_neg h, if_neg fun hc => h (Or.symm hc), dot_comm k a,
      mul_comm (vnorm k) (vnorm a)]

/-- Cosine similarity of a nonzero vector with itself is 1. -/
theorem cosineSim_self {n : ℕ} {a : Vec n} (h : a ≠ 0) : cosineSim a a = 1 := by
  unfold cosineSim
  rw [if_neg (not_or.mpr ⟨dot_self_ne_zero h, dot_self_ne_zero h⟩), vnorm_mul_self,
    div_self (dot_self_ne_zero h)]

/-- Cosine similarity always lies in `[-1, 1]`. -/
theorem abs_cosineSim_le_one {n : ℕ} (a k : Vec n) : |cosineSim a k| ≤ 1 := by
  unfold cosineSim
  split_ifs with h
  · simp
  · push_neg at h
    have ha : 0 < dot a a := lt_of_le_of_ne (dot_self_nonneg a) (Ne.symm h.1)
    have hk : 0 < dot k k := lt_of_le_of_ne (dot_self_nonneg k) (Ne.symm h.2)
    have hN : 0 < vnorm a * vnorm k :=
      mul_pos (Real.sqrt_pos.mpr ha) (Real.sqrt_pos.mpr hk)
    rw [abs_div, abs_of_pos hN, div_le_one hN]
    exact abs_dot_le a k

/-- Cosine similarity against the zero answer vector is 0. -/
theorem cosineSim_zero_left {n : ℕ} (k : Vec n) : cosineSim (0 : Vec n) k = 0 := by
  unfold cosineSim
  rw [if_pos (Or.inl (by simp [dot_eq_sum]))]

/-! Rounding and clamping helper lemmas. -/

/-- Round-half-to-even agrees with `round` away from exact halves and fixes
integers. -/
theorem roundHalfEven_intCast (z : ℤ) : roundHalfEven (z : ℝ) = z := by
  unfold roundHalfEven
  rw [Int.fract_intCast]
  norm_num [round_intCast]

/-- Standard rounding equals the floor when the fractional part is below a
half. -/
theorem round_eq_floor_of_fract_lt {x : ℝ} (h : Int.fract x < 1 / 2) : round x = ⌊x⌋ := by
  rw [round_eq]
  apply Int.floor_eq_iff.mpr
  have hle := Int.floor_le x
  have hf := Int.floor_add_fract x
  constructor
  · linarith
  · linarith

/-- Standard rounding equals the floor plus one when the fractional part is
at least a half. -/
theorem round_eq_floor_add_one_of_half_le {x : ℝ} (h : 1 / 2 ≤ Int.fract x) :
    round x = ⌊x⌋ + 1 := by
  rw [round_eq]
  apply Int.floor_eq_iff.mpr
  have hf := Int.floor_add_fract x
  have h1 := Int.fract_lt_one x
  constructor
  · push_cast
    linarith
  · push_cast
    linarith

/-- Rounding to nearest, ties to even, never goes below the floor. -/
theorem floor_le_roundHalfEven (x : ℝ) : ⌊x⌋ ≤ roundHalfEven x := by
  unfold roundHalfEven
  split_ifs with h1 h2
  · exact le_refl _
  · omega
  · rcases lt_or_le (Int.fract x) (1 / 2) with h | h
    · rw [round_eq_floor_of_fract_lt h]
    · rw [round_eq_floor_add_one_of_half_le h]
      omega

/-- Rounding to nearest, ties to even, never exceeds the floor plus one. -/
theorem roundHalfEven_le_floor_add_one (x : ℝ) : roundHalfEven x ≤ ⌊x⌋ + 1 := by
  unfold roundHalfEven
  split_ifs with h1 h2
  · omega
  · exact le_refl _
  · rcases lt_or_le (Int.fract x) (1 / 2) with h | h
    · rw [round_eq_floor_of_fract_lt h]
      omega
    · rw [round_eq_floor_add_one_of_half_le h]

/-- Round-half-to-even is monotone. -/
theorem roundHalfEven_mono {x y : ℝ} (h : x ≤ y) : roundHalfEven x ≤ roundHalfEven y := by
  rcases lt_or_eq_of_le (Int.floor_mono h) with hf | hf
  · calc roundHalfEven x ≤ ⌊x⌋ + 1 := roundHalfEven_le_floor_add_one x
      _ ≤ ⌊y⌋ := by omega
      _ ≤ roundHalfEven y := floor_le_roundHalfEven y
  · have hfr : Int.fract x ≤ Int.fract y := by
      unfold Int.fract
      rw [hf]
      linarith
    by_cases h1 : Int.fract x = 1 / 2
    · by_cases h2 : Int.fract y = 1 / 2
      · have hxy : x = y := by
          have hx := Int.floor_add_fract x
          have hy := Int.floor_add_fract y
          rw [hf] at hx
          rw [h1] at hx
          rw [h2] at hy
          linarith
        rw [hxy]
      · have hy2 : 1 / 2 ≤ Int.fract y := le_trans (le_of_eq h1.symm) hfr
        unfold roundHalfEven
        rw [if_pos h1, if_neg h2, round_eq_floor_add_one_of_half_le hy2, hf]
        split_ifs with h3
        · omega
        · omega
    · by_cases h2 : Int.fract y = 1 / 2
      · have hx2 : Int.fract x < 1 / 2 := lt_of_le_of_ne (hfr.trans (le_of_eq h2)) h1
        unfold roundHalfEven
        rw [if_neg h1, if_pos h2, round_eq_floor_of_fract_lt hx2, hf]
        split_ifs with h3
        · omega
        · omega
      · unfold roundHalfEven
        rw [if_neg h1, if_neg h2]
        rcases lt_or_le (Int.fract x) (1 / 2) with hx2 | hx2
        · rw [round_eq_floor_of_fract_lt hx2]
          rcases lt_or_le (Int.fract y) (1 / 2) with hy2 | hy2
          · rw [round_eq_floor_of_fract_lt hy2, hf]
          · rw [round_eq_floor_add_one_of_half_le hy2]
            omega
        · rw [round_eq_floor_add_one_of_half_le hx2,
            round_eq_floor_add_one_of_half_le (hx2.trans hfr), hf]

/-! Clamping and list-sum helper lemmas. -/

/-- The clamped score is at least 0. -/
theorem clampScore_nonneg (z : ℤ) : 0 ≤ clampScore z := le_max_left 0 _

/-- The clamped score is at most 100. -/
theorem clampScore_le_hundred (z : ℤ) : clampScore z ≤ 100 := by
  unfold clampScore
  omega

/-- Clamping is monotone. -/
theorem clampScore_mono {z w : ℤ} (h : z ≤ w) : clampScore z ≤ clampScore w := by
  unfold clampScore
  omega

/-- Filtering by a stronger predicate gives a smaller sum of a nonnegative
function. -/
theorem sum_map_filter_le_of_imp {α : Type} (l : List α) (p q : α → Bool) (f : α → ℝ)
    (hf : ∀ x ∈ l, 0 ≤ f x) (hpq : ∀ x ∈ l, p x = true → q x = true) :
    ((l.filter p).map f).sum ≤ ((l.filter q).map f).sum := by
  induction l with
  | nil => simp
  | cons a l ih =>
    have hfa := hf a (List.mem_cons_self a l)
    have ih2 := ih (fun x hx => hf x (List.mem_cons_of_mem a hx))
      (fun x hx => hpq x (List.mem_cons_of_mem a hx))
    by_cases hp : p a = true
    · have hq := hpq a (List.mem_cons_self a l) hp
      simp only [List.filter_cons, hp, hq, if_true, List.map_cons, List.sum_cons]
      linarith
    · have hp2 : p a = false := by simpa using hp
      by_cases hq : q a = true
      · simp only [List.filter_cons, hp2, hq, if_true, Bool.false_eq_true, if_false,
          List.map_cons, List.sum_cons]
        linarith
      · have hq2 : q a = false := by simpa using hq
        simp only [List.filter_cons, hp2, hq2, Bool.false_eq_true, if_false]
        exact ih2

/-- The total weight is nonnegative when all weights are. -/
theorem totalWeight_nonneg {n : ℕ} {kps : List (KeyPoint n)}
    (hw : ∀ kp ∈ kps, 0 ≤ kp.weight) : 0 ≤ totalWeight kps := by
  apply List.sum_nonneg
  intro x hx
  rcases List.mem_map.mp hx with ⟨kp, hkp, rfl⟩
  exact hw kp hkp

/-- The total weight is invariant under permutation of the key points. -/
theorem totalWeight_perm {n : ℕ} {kps kps' : List (KeyPoint n)} (h : kps.Perm kps') :
    totalWeight kps = totalWeight kps' := (h.map KeyPoint.weight).sum_eq

/-- The hit weight is invariant under permutation of the key points. -/
theorem hitWeight_perm {n : ℕ} (a : Vec n) (t : ℝ) {kps kps' : List (KeyPoint n)}
    (h : kps.Perm kps') : hitWeight a t kps = hitWeight a t kps' :=
  ((h.filter (isHit a t)).map KeyPoint.weight).sum_eq

theorem answerVec_ne_zero : answerVec ≠ 0 := by
  intro h
  have h0 := congrFun h 0
  simp [answerVec] at h0

theorem dot_answerVec_self : dot answerVec answerVec = 1 := by
  simp [dot_eq_sum, answerVec, Fin.sum_univ_four]

theorem dot_kp1_self : dot mitosisKp1.embedding mitosisKp1.embedding = 100 := by
  simp [dot_eq_sum, mitosisKp1, Fin.sum_univ_four]
  norm_num

theorem dot_kp2_self : dot mitosisKp2.embedding mitosisKp2.embedding = 25 := by
  simp [dot_eq_sum, mitosisKp2, Fin.sum_univ_four]
  norm_num

theorem dot_answerVec_kp1 : dot answerVec mitosisKp1.embedding = 9 := by
  simp [dot_eq_sum, answerVec, mitosisKp1, Fin.sum_univ_four]

theorem dot_answerVec_kp2 : dot answerVec mitosisKp2.embedding = 2 := by
  simp [dot_eq_sum, answerVec, mitosisKp2, Fin.sum_univ_four]

theorem sqrt_hundred : Real.sqrt 100 = 10 := by
  rw [show (100 : ℝ) = 10 ^ 2 by norm_num, Real.sqrt_sq (by norm_num : (0:ℝ) ≤ 10)]

theorem sqrt_twentyfive : Real.sqrt 25 = 5 := by
  rw [show (25 : ℝ) = 5 ^ 2 by norm_num, Real.sqrt_sq (by norm_num : (0:ℝ) ≤ 5)]

theorem cosineSim_answer_kp1 : cosineSim answerVec mitosisKp1.embedding = 9 / 10 := by
  unfold cosineSim
  rw [if_neg (by rw [dot_answerVec_self, dot_kp1_self]; norm_num), vnorm, vnorm,
    dot_answerVec_self, dot_kp1_self, dot_answerVec_kp1, Real.sqrt_one, sqrt_hundred]
  norm_num

theorem cosineSim_answer_kp2 : cosineSim answerVec mitosisKp2.embedding = 2 / 5 := by
  unfold cosineSim
  rw [if_neg (by rw [dot_answerVec_self, dot_kp2_self]; norm_num), vnorm, vnorm,
    dot_answerVec_self, dot_kp2_self, dot_answerVec_kp2, Real.sqrt_one, sqrt_twentyfive]
  norm_num

theorem isHit_answer_kp1 : isHit answerVec (3 / 4) mitosisKp1 = true := by
  unfold isHit
  rw [cosineSim_answer_kp1]
  simp only [decide_eq_true_eq]
  norm_num

theorem isHit_answer_kp2 : isHit answerVec (3 / 4) mitosisKp2 = false := by
  unfold isHit
  rw [cosineSim_answer_kp2]
  simp only [decide_eq_false_iff_not]
  norm_num

theorem score_scenario_hits :
    (score answerVec [mitosisKp1, mitosisKp2] (3 / 4)).hits =
      ["mitosis involves chromosome duplication"] := by
  show (List.filter (isHit answerVec (3 / 4)) [mitosisKp1, mitosisKp2]).map KeyPoint.text = _
  simp only [List.filter_cons, isHit_answer_kp1, isHit_answer_kp2, if_true,
    Bool.false_eq_true, if_false, List.filter_nil, List.map_cons, List.map_nil]
  rfl

theorem score_scenario_misses :
    (score answerVec [mitosisKp1, mitosisKp2] (3 / 4)).misses =
      ["occurs in one round of division"] := by
  show (List.filter (fun kp => ! isHit answerVec (3 / 4) kp) [mitosisKp1, mitosisKp2]).map
      KeyPoint.text = _
  simp only [List.filter_cons, isHit_answer_kp1, isHit_answer_kp2, Bool.not_true,
    Bool.not_false, if_true, Bool.false_eq_true, if_false, List.filter_nil, List.map_cons,
    List.map_nil]
  rfl

theorem score_scenario_raw :
    (score answerVec [mitosisKp1, mitosisKp2] (3 / 4)).raw_score = 50 := by
  have hW : hitWeight answerVec (3 / 4) [mitosisKp1, mitosisKp2] = 1 := by
    unfold hitWeight
    simp only [List.filter_cons, isHit_answer_kp1, isHit_answer_kp2, if_true,
      Bool.false_eq_true, if_false, List.filter_nil, List.map_cons, List.map_nil]
    norm_num [mitosisKp1]
  have hT : totalWeight [mitosisKp1, mitosisKp2] = 2 := by
    unfold totalWeight
    norm_num [mitosisKp1, mitosisKp2]
  show clampScore (roundHalfEven (100 * hitWeight answerVec (3 / 4) [mitosisKp1, mitosisKp2] /
    totalWeight [mitosisKp1, mitosisKp2])) = 50
  rw [hW, hT, show (100 * 1 / 2 : ℝ) = ((50 : ℤ) : ℝ) by norm_num, roundHalfEven_intCast]
  rfl

theorem evaluate_scenario :
    evaluate mitosisStore mitosisEmbed (3 / 4) "q-1" "chromosomes duplicate" =
      .ok { score := 50, feedback := "Good effort. Some key points are still missing.",
            hit_key_points := ["mitosis involves chromosome duplication"],
            missing_key_points := ["occurs in one round of division"] } := by
  have hj : ¬ (jsTrim "chromosomes duplicate" = "") := by decide
  have hs : mitosisStore "q-1" = some [mitosisKp1, mitosisKp2] := by
    unfold mitosisStore
    simp
  have he : mitosisEmbed "chromosomes duplicate" = some answerVec := by
    unfold mitosisEmbed
    simp
  unfold evaluate
  rw [if_neg hj, hs, he]
  simp only [compose, score_scenario_raw, score_scenario_hits, score_scenario_misses]
  norm_num

theorem dot_dupA_self : dot dupKpA.embedding dupKpA.embedding = 1 := by
  simp [dot_eq_sum, dupKpA, Fin.sum_univ_four]

theorem dot_dupB_self : dot dupKpB.embedding dupKpB.embedding = 1 := by
  simp [dot_eq_sum, dupKpB, Fin.sum_univ_four]

theorem dot_answer_dupA : dot answerVec dupKpA.embedding = 1 := by
  simp [dot_eq_sum, answerVec, dupKpA, Fin.sum_univ_four]

theorem dot_answer_dupB : dot answerVec dupKpB.embedding = 0 := by
  simp [dot_eq_sum, answerVec, dupKpB, Fin.sum_univ_four]

theorem cosineSim_answer_dupA : cosineSim answerVec dupKpA.embedding = 1 := by
  unfold cosineSim
  rw [if_neg (by rw [dot_answerVec_self, dot_dupA_self]; norm_num), vnorm, vnorm,
    dot_answerVec_self, dot_dupA_self, dot_answer_dupA, Real.sqrt_one]
  norm_num

theorem cosineSim_answer_dupB : cosineSim answerVec dupKpB.embedding = 0 := by
  unfold cosineSim
  rw [if_neg (by rw [dot_answerVec_self, dot_dupB_self]; norm_num), dot_answer_dupB]
  norm_num

theorem isHit_answer_dupA : isHit answerVec (3 / 4) dupKpA = true := by
  unfold isHit
  rw [cosineSim_answer_dupA]
  simp only [decide_eq_true_eq]
  norm_num

theorem isHit_answer_dupB : isHit answerVec (3 / 4) dupKpB = false := by
  unfold isHit
  rw [cosineSim_answer_dupB]
  simp only [decide_eq_false_iff_not]
  norm_num

theorem hits_dup : (score answerVec [dupKpA, dupKpB] (3 / 4)).hits = ["shared phrase"] := by
  show (List.filter (isHit answerVec (3 / 4)) [dupKpA, dupKpB]).map KeyPoint.text = _
  simp only [List.filter_cons, isHit_answer_dupA, isHit_answer_dupB, if_true,
    Bool.false_eq_true, if_false, List.filter_nil, List.map_cons, List.map_nil]
  rfl

theorem misses_dup : (score answerVec [dupKpA, dupKpB] (3 / 4)).misses = ["shared phrase"] := by
  show (List.filter (fun kp => ! isHit answerVec (3 / 4) kp) [dupKpA, dupKpB]).map
      KeyPoint.text = _
  simp only [List.filter_cons, isHit_answer_dupA, isHit_answer_dupB, Bool.not_true,
    Bool.not_false, if_true, Bool.false_eq_true, if_false, List.filter_nil, List.map_cons,
    List.map_nil]
  rfl

theorem kp1_embedding_ne_zero : mitosisKp1.embedding ≠ 0 := by
  intro h
  have h0 := congrFun h 0
  norm_num [mitosisKp1] at h0

theorem isHit_zeroVec4 (kp : KeyPoint 4) : isHit zeroVec4 (3 / 4) kp = false := by
  unfold isHit zeroVec4
  rw [cosineSim_zero_left]
  simp only [decide_eq_false_iff_not]
  norm_num

/-- C1: for every non-empty key point sequence with positive weights and
every answer embedding, the score is 100 times the hit weight over the total
weight, rounded to the nearest integer and clamped to `[0, 100]`; in
particular, with two key points of weight 1, threshold `0.75`, and
similarities `0.9` and `0.4`, the evaluation yields score 50 with exactly
the first key point hit and the second missing. -/
theorem score_weighted_hit_fraction (n : ℕ) (a : Vec n) (kps : List (KeyPoint n)) (t : ℝ)
    (_hne : kps ≠ []) (_hw : ∀ kp ∈ kps, 0 < kp.weight) :
    ((score a kps t).raw_score =
        max 0 (min 100 (roundHalfEven
          (100 * ((kps.filter (isHit a t)).map KeyPoint.weight).sum /
            (kps.map KeyPoint.weight).sum))) ∧
      0 ≤ (score a kps t).raw_score ∧ (score a kps t).raw_score ≤ 100) ∧
    cosineSim answerVec mitosisKp1.embedding = 9 / 10 ∧
    cosineSim answerVec mitosisKp2.embedding = 2 / 5 ∧
    evaluate mitosisStore mitosisEmbed (3 / 4) "q-1" "chromosomes duplicate" =
      .ok { score := 50, feedback := "Good effort. Some key points are still missing.",
            hit_key_points := ["mitosis involves chromosome duplication"],
            missing_key_points := ["occurs in one round of division"] } :=
  ⟨⟨rfl, clampScore_nonneg _, clampScore_le_hundred _⟩,
    cosineSim_answer_kp1, cosineSim_answer_kp2, evaluate_scenario⟩

/-- Witness for `score_weighted_hit_fraction` at the scenario inputs. -/
theorem score_weighted_hit_fraction_witness :
    ([mitosisKp1, mitosisKp2] ≠ ([] : List (KeyPoint 4))) ∧
    (∀ kp ∈ [mitosisKp1, mitosisKp2], 0 < kp.weight) ∧
    (score answerVec [mitosisKp1, mitosisKp2] (3 / 4)).raw_score =
      max 0 (min 100 (roundHalfEven
        (100 * (([mitosisKp1, mitosisKp2].filter (isHit answerVec (3 / 4))).map
            KeyPoint.weight).sum /
          ([mitosisKp1, mitosisKp2].map KeyPoint.weight).sum))) := by
  have hne : [mitosisKp1, mitosisKp2] ≠ ([] : List (KeyPoint 4)) := by simp
  have hw : ∀ kp ∈ [mitosisKp1, mitosisKp2], 0 < kp.weight := by
    intro kp hkp
    rcases List.mem_cons.mp hkp with rfl | hkp2
    · norm_num [mitosisKp1]
    · rcases List.mem_cons.mp hkp2 with rfl | hkp3
      · norm_num [mitosisKp2]
      · exact absurd hkp3 (List.not_mem_nil kp)
  exact ⟨hne, hw,
    (score_weighted_hit_fraction 4 answerVec [mitosisKp1, mitosisKp2] (3 / 4) hne hw).1.1⟩

/-- C3 counterexample: when two key points share the same text and one hits
while the other misses, `hit_key_points` and `missing_key_points` both
contain that text, so they are not disjoint as the claim states. -/
theorem hit_miss_disjoint_counterexample :
    (score answerVec [dupKpA, dupKpB] (3 / 4)).hits = ["shared phrase"] ∧
    (score answerVec [dupKpA, dupKpB] (3 / 4)).misses = ["shared phrase"] ∧
    ¬ List.Disjoint (score answerVec [dupKpA, dupKpB] (3 / 4)).hits
        (score answerVec [dupKpA, dupKpB] (3 / 4)).misses := by
  refine ⟨hits_dup, misses_dup, fun hdis => ?_⟩
  exact hdis (by rw [hits_dup]; exact List.mem_singleton_self _)
    (by rw [misses_dup]; exact List.mem_singleton_self _)

/-- C3 amended: hit and missing key point texts are disjoint provided the
question's key point texts are pairwise distinct; unconditionally, their
union as a set is all of the question's key point texts, and the hits are
exactly the texts of key points whose similarity is at least the
threshold. -/
theorem hit_miss_partition (n : ℕ) (a : Vec n) (kps : List (KeyPoint n)) (t : ℝ) :
    ((kps.map KeyPoint.text).Nodup →
      List.Disjoint (score a kps t).hits (score a kps t).misses) ∧
    (∀ x : String, (x ∈ (score a kps t).hits ∨ x ∈ (score a kps t).misses) ↔
      x ∈ kps.map KeyPoint.text) ∧
    (∀ x : String, x ∈ (score a kps t).hits ↔
      ∃ kp ∈ kps, kp.text = x ∧ t ≤ cosineSim a kp.embedding) := by
  refine ⟨?_, ?_, ?_⟩
  · intro hnd x hxh hxm
    rcases List.mem_map.mp hxh with ⟨kp1, hkp1, hx1⟩
    rcases List.mem_map.mp hxm with ⟨kp2, hkp2, hx2⟩
    rcases List.mem_filter.mp hkp1 with ⟨hm1, hh1⟩
    rcases List.mem_filter.mp hkp2 with ⟨hm2, hh2⟩
    have heq : kp1 = kp2 := List.inj_on_of_nodup_map hnd hm1 hm2 (hx1.trans hx2.symm)
    rw [heq] at hh1
    rw [hh1] at hh2
    simp at hh2
  · intro x
    constructor
    · rintro (hx | hx)
      · rcases List.mem_map.mp hx with ⟨kp, hkp, rfl⟩
        exact List.mem_map.mpr ⟨kp, (List.mem_filter.mp hkp).1, rfl⟩
      · rcases List.mem_map.mp hx with ⟨kp, hkp, rfl⟩
        exact List.mem_map.mpr ⟨kp, (List.mem_filter.mp hkp).1, rfl⟩
    · intro hx
      rcases List.mem_map.mp hx with ⟨kp, hkp, rfl⟩
      by_cases hh : isHit a t kp = true
      · exact Or.inl (List.mem_map.mpr ⟨kp, List.mem_filter.mpr ⟨hkp, hh⟩, rfl⟩)
      · refine Or.inr (List.mem_map.mpr ⟨kp, List.mem_filter.mpr ⟨hkp, ?_⟩, rfl⟩)
        simp only [Bool.not_eq_true] at hh
        simp [hh]
  · intro x
    constructor
    · intro hx
      rcases List.mem_map.mp hx with ⟨kp, hkp, rfl⟩
      rcases List.mem_filter.mp hkp with ⟨hm, hh⟩
      refine ⟨kp, hm, rfl, ?_⟩
      simpa [isHit, decide_eq_true_eq] using hh
    · rintro ⟨kp, hm, rfl, hsim⟩
      exact List.mem_map.mpr ⟨kp, List.mem_filter.mpr ⟨hm, by simp [isHit, hsim]⟩, rfl⟩

/-- Witness for `hit_miss_partition` at the scenario key points, whose
texts are distinct. -/
theorem hit_miss_partition_witness :
    ([mitosisKp1, mitosisKp2].map KeyPoint.text).Nodup ∧
    List.Disjoint (score answerVec [mitosisKp1, mitosisKp2] (3 / 4)).hits
      (score answerVec [mitosisKp1, mitosisKp2] (3 / 4)).misses := by
  have hnd : ([mitosisKp1, mitosisKp2].map KeyPoint.text).Nodup := by
    simp [mitosisKp1, mitosisKp2]
  exact ⟨hnd, (hit_miss_partition 4 answerVec [mitosisKp1, mitosisKp2] (3 / 4)).1 hnd⟩

/-- C4: scoring is deterministic and order-independent — permuting the key
points does not change the aggregate score, two calls of `evaluate` with
identical inputs give identical results, and hit and missing lists preserve
the store's key point sequence order (they are sublists of it). -/
theorem score_order_independent (n : ℕ) (a : Vec n) (t : ℝ)
    (kps kps' : List (KeyPoint n)) (hperm : kps.Perm kps')
    (get_key_points : String → Option (List (KeyPoint n)))
    (embed : String → Option (Vec n)) (qid ans : String) :
    (score a kps t).raw_score = (score a kps' t).raw_score ∧
    evaluate get_key_points embed t qid ans = evaluate get_key_points embed t qid ans ∧
    List.Sublist (score a kps t).hits (kps.map KeyPoint.text) ∧
    List.Sublist (score a kps t).misses (kps.map KeyPoint.text) := by
  refine ⟨?_, rfl, ?_, ?_⟩
  · show clampScore (roundHalfEven (100 * hitWeight a t kps / totalWeight kps)) =
      clampScore (roundHalfEven (100 * hitWeight a t kps' / totalWeight kps'))
    rw [hitWeight_perm a t hperm, totalWeight_perm hperm]
  · exact (List.filter_sublist kps).map KeyPoint.text
  · exact (List.filter_sublist kps).map KeyPoint.text

/-- Witness for `score_order_independent`: swapping the two scenario key
points leaves the aggregate score unchanged. -/
theorem score_order_independent_witness :
    List.Perm [mitosisKp1, mitosisKp2] [mitosisKp2, mitosisKp1] ∧
    (score answerVec [mitosisKp1, mitosisKp2] (3 / 4)).raw_score =
      (score answerVec [mitosisKp2, mitosisKp1] (3 / 4)).raw_score :=
  ⟨List.Perm.swap mitosisKp2 mitosisKp1 [],
   (score_order_independent 4 answerVec (3 / 4) [mitosisKp1, mitosisKp2]
      [mitosisKp2, mitosisKp1] (List.Perm.swap mitosisKp2 mitosisKp1 []) mitosisStore
      mitosisEmbed "q-1" "chromosomes duplicate").1⟩

/-- C5: a zero answer embedding yields similarity 0 for every key point
without failing, and the denominator `|a| * |k|` of the cosine formula is
nonzero whenever both vectors are nonzero. -/
theorem similarity_zero_answer (n : ℕ) (kps : List (KeyPoint n)) (k : Vec n) (t : ℝ)
    (a b : Vec n) (ha : a ≠ 0) (hb : b ≠ 0) :
    cosineSim (0 : Vec n) k = 0 ∧
    (∀ s ∈ (score (0 : Vec n) kps t).per_key_point_similarity, s = 0) ∧
    vnorm a * vnorm b ≠ 0 := by
  refine ⟨cosineSim_zero_left k, ?_, (mul_pos (vnorm_pos ha) (vnorm_pos hb)).ne'⟩
  intro s hs
  rcases List.mem_map.mp hs with ⟨kp, _, rfl⟩
  exact cosineSim_zero_left kp.embedding

/-- Witness for `similarity_zero_answer` at concrete nonzero vectors. -/
theorem similarity_zero_answer_witness :
    answerVec ≠ 0 ∧ mitosisKp1.embedding ≠ 0 ∧
    cosineSim (0 : Vec 4) mitosisKp1.embedding = 0 ∧
    vnorm answerVec * vnorm mitosisKp1.embedding ≠ 0 :=
  ⟨answerVec_ne_zero, kp1_embedding_ne_zero,
   (similarity_zero_answer 4 [mitosisKp1, mitosisKp2] mitosisKp1.embedding (3 / 4)
      answerVec mitosisKp1.embedding answerVec_ne_zero kp1_embedding_ne_zero).1,
   (similarity_zero_answer 4 [mitosisKp1, mitosisKp2] mitosisKp1.embedding (3 / 4)
      answerVec mitosisKp1.embedding answerVec_ne_zero kp1_embedding_ne_zero).2.2⟩

/-- C6: cosine similarity of nonzero vectors of equal dimension is symmetric
and bounded in `[-1, 1]`, and a nonzero vector compared against itself has
similarity exactly 1. -/
theorem cosineSim_symm_bounded (n : ℕ) (a k : Vec n) (ha : a ≠ 0) (hk : k ≠ 0) :
    cosineSim a k = cosineSim k a ∧ -1 ≤ cosineSim a k ∧ cosineSim a k ≤ 1 ∧
    cosineSim a a = 1 ∧ cosineSim k k = 1 := by
  have hb := abs_le.mp (abs_cosineSim_le_one a k)
  exact ⟨cosineSim_comm a k, hb.1, hb.2, cosineSim_self ha, cosineSim_self hk⟩

/-- Witness for `cosineSim_symm_bounded` at concrete nonzero vectors. -/
theorem cosineSim_symm_bounded_witness :
    answerVec ≠ 0 ∧ mitosisKp1.embedding ≠ 0 ∧
    cosineSim answerVec mitosisKp1.embedding =
      cosineSim mitosisKp1.embedding answerVec ∧
    cosineSim answerVec answerVec = 1 :=
  ⟨answerVec_ne_zero, kp1_embedding_ne_zero,
   (cosineSim_symm_bounded 4 answerVec mitosisKp1.embedding answerVec_ne_zero
      kp1_embedding_ne_zero).1,
   (cosineSim_symm_bounded 4 answerVec mitosisKp1.embedding answerVec_ne_zero
      kp1_embedding_ne_zero).2.2.2.1⟩

/-- C7: with weights fixed and nonnegative, if one classification's hit set
contains another's, its aggregate score is at least the other's — the score
is monotonically non-decreasing in the set of hit key points. -/
theorem score_monotone_in_hits (n : ℕ) (a b : Vec n) (kps : List (KeyPoint n)) (t : ℝ)
    (hw : ∀ kp ∈ kps, 0 ≤ kp.weight)
    (hsub : ∀ kp ∈ kps, isHit b t kp = true → isHit a t kp = true) :
    (score b kps t).raw_score ≤ (score a kps t).raw_score := by
  have hW : hitWeight b t kps ≤ hitWeight a t kps :=
    sum_map_filter_le_of_imp kps (isHit b t) (isHit a t) KeyPoint.weight hw hsub
  have hT : 0 ≤ totalWeight kps := totalWeight_nonneg hw
  show clampScore (roundHalfEven (100 * hitWeight b t kps / totalWeight kps)) ≤
    clampScore (roundHalfEven (100 * hitWeight a t kps / totalWeight kps))
  apply clampScore_mono
  apply roundHalfEven_mono
  rcases eq_or_lt_of_le hT with hT0 | hT0
  · rw [← hT0, div_zero, div_zero]
  · rw [div_le_div_iff_of_pos_right hT0]
    linarith

/-- Witness for `score_monotone_in_hits`: the zero answer hits nothing, so
its score is at most the scenario answer's score. -/
theorem score_monotone_in_hits_witness :
    (∀ kp ∈ [mitosisKp1, mitosisKp2], 0 ≤ kp.weight) ∧
    (∀ kp ∈ [mitosisKp1, mitosisKp2],
      isHit zeroVec4 (3 / 4) kp = true → isHit answerVec (3 / 4) kp = true) ∧
    (score zeroVec4 [mitosisKp1, mitosisKp2] (3 / 4)).raw_score ≤
      (score answerVec [mitosisKp1, mitosisKp2] (3 / 4)).raw_score := by
  have hw : ∀ kp ∈ [mitosisKp1, mitosisKp2], 0 ≤ kp.weight := by
    intro kp hkp
    rcases List.mem_cons.mp hkp with rfl | hkp2
    · norm_num [mitosisKp1]
    · rcases List.mem_cons.mp hkp2 with rfl | hkp3
      · norm_num [mitosisKp2]
      · exact absurd hkp3 (List.not_mem_nil kp)
  have hsub : ∀ kp ∈ [mitosisKp1, mitosisKp2],
      isHit zeroVec4 (3 / 4) kp = true → isHit answerVec (3 / 4) kp = true := by
    intro kp _ h
    rw [isHit_zeroVec4 kp] at h
    exact absurd h (by simp)
  exact ⟨hw, hsub,
    score_monotone_in_hits 4 answerVec zeroVec4 [mitosisKp1, mitosisKp2] (3 / 4) hw hsub⟩
